import Mathlib

/-!
Shallow embedding of the Kembacoin core (block hashing and mining, chain
acceptance, the Q-system admission ledger, and the peer message dispatch),
translated from the Python sources in src/blockchain/.  Machine arithmetic is
modelled on Nat (32-bit SHA-256 words are reduced modulo 2^32 explicitly),
wall-clock readings are explicit rational parameters, and Python dicts are
association lists.  SHA-256 itself is implemented executably so that concrete
blocks can be evaluated inside proofs.
-/

/-- Reduce a natural number to a 32-bit word. -/
def w32 (n : Nat) : Nat := n % 4294967296

/-- Rotate the 32-bit word x right by k bit positions. -/
def rotr (k x : Nat) : Nat := w32 ((x >>> k) ||| (x <<< (32 - k)))

/-- SHA-256 big sigma-0. -/
def bsig0 (x : Nat) : Nat := (rotr 2 x) ^^^ (rotr 13 x) ^^^ (rotr 22 x)

/-- SHA-256 big sigma-1. -/
def bsig1 (x : Nat) : Nat := (rotr 6 x) ^^^ (rotr 11 x) ^^^ (rotr 25 x)

/-- SHA-256 small sigma-0. -/
def ssig0 (x : Nat) : Nat := (rotr 7 x) ^^^ (rotr 18 x) ^^^ (x >>> 3)

/-- SHA-256 small sigma-1. -/
def ssig1 (x : Nat) : Nat := (rotr 17 x) ^^^ (rotr 19 x) ^^^ (x >>> 10)

/-- SHA-256 choice function (the complement is taken inside 32 bits). -/
def chf (e f g : Nat) : Nat := (e &&& f) ^^^ ((4294967295 ^^^ e) &&& g)

/-- SHA-256 majority function. -/
def majf (a b c : Nat) : Nat := (a &&& b) ^^^ (a &&& c) ^^^ (b &&& c)

/-- Round-constant table of SHA-256 (FIPS 180-4, in decimal). -/
def sha256K : List Nat :=
  [1116352408, 1899447441, 3049323471, 3921009573, 961987163, 1508970993,
   2453635748, 2870763221, 3624381080, 310598401, 607225278, 1426881987,
   1925078388, 2162078206, 2614888103, 3248222580, 3835390401, 4022224774,
   264347078, 604807628, 770255983, 1249150122, 1555081692, 1996064986,
   2554220882, 2821834349, 2952996808, 3210313671, 3336571891, 3584528711,
   113926993, 338241895, 666307205, 773529912, 1294757372, 1396182291,
   1695183700, 1986661051, 2177026350, 2456956037, 2730485921, 2820302411,
   3259730800, 3345764771, 3516065817, 3600352804, 4094571909, 275423344,
   430227734, 506948616, 659060556, 883997877, 958139571, 1322822218,
   1537002063, 1747873779, 1955562222, 2024104815, 2227730452, 2361852424,
   2428436474, 2756734187, 3204031479, 3329325298]

/-- Initial hash state of SHA-256 (FIPS 180-4, in decimal). -/
def sha256H0 : List Nat :=
  [1779033703, 3144134277, 1013904242, 2773480762,
   1359893119, 2600822924, 528734635, 1541459225]

/-- Eight-byte big-endian encoding of the bit length, for SHA-256 padding. -/
def lenBytes8 (n : Nat) : List Nat :=
  [(n >>> 56) % 256, (n >>> 48) % 256, (n >>> 40) % 256, (n >>> 32) % 256,
   (n >>> 24) % 256, (n >>> 16) % 256, (n >>> 8) % 256, n % 256]

/-- SHA-256 padding: a 0x80 byte, zeros up to 56 mod 64, then the bit length. -/
def padMessage (msg : List Nat) : List Nat :=
  let L := msg.length
  let k := (120 - ((L + 1) % 64)) % 64
  msg ++ [128] ++ List.replicate k 0 ++ lenBytes8 (L * 8)

/-- Big-endian 32-bit words of a byte list whose length is a multiple of 4. -/
def toWords : List Nat → List Nat
  | a :: b :: c :: d :: rest => ((a <<< 24) ||| (b <<< 16) ||| (c <<< 8) ||| d) :: toWords rest
  | _ => []

/-- Split a word list into 16-word blocks; the first argument is the block count. -/
def splitBlocksAux : Nat → List Nat → List (List Nat)
  | 0, _ => []
  | n + 1, ws => ws.take 16 :: splitBlocksAux n (ws.drop 16)

/-- Append the next message-schedule word, computed from the trailing 16 entries. -/
def schedStep (w : List Nat) : List Nat :=
  let n := w.length
  w ++ [w32 (w.getD (n - 16) 0 + ssig0 (w.getD (n - 15) 0) + w.getD (n - 7) 0 + ssig1 (w.getD (n - 2) 0))]

/-- Iterate a function n times. -/
def iterN {α : Type} (f : α → α) : Nat → α → α
  | 0, a => a
  | n + 1, a => iterN f n (f a)

/-- Extend a 16-word block to the 64-word message schedule. -/
def extendTo64 (w : List Nat) : List Nat := iterN schedStep 48 w

/-- One SHA-256 compression round on the eight-word working state. -/
def roundFn (st : List Nat) (ki wi : Nat) : List Nat :=
  match st with
  | [a, b, c, d, e, f, g, h] =>
    let t1 := w32 (h + bsig1 e + chf e f g + ki + wi)
    let t2 := w32 (bsig0 a + majf a b c)
    [w32 (t1 + t2), a, b, c, w32 (d + t1), e, f, g]
  | s => s

/-- Fold the 64 compression rounds over the paired constants and schedule. -/
def foldRounds : List Nat → List (Nat × Nat) → List Nat
  | st, [] => st
  | st, kw :: rest => foldRounds (roundFn st kw.1 kw.2) rest

/-- Compress one 16-word message block into the running hash state. -/
def compressBlock (H : List Nat) (block : List Nat) : List Nat :=
  let w := extendTo64 block
  let st := foldRounds H (sha256K.zip w)
  List.zipWith (fun x y => w32 (x + y)) H st

/-- Big-endian bytes of a 32-bit word. -/
def wordBytes (wd : Nat) : List Nat :=
  [(wd >>> 24) % 256, (wd >>> 16) % 256, (wd >>> 8) % 256, wd % 256]

/-- Concatenate a list of lists. -/
def listJoin {α : Type} : List (List α) → List α
  | [] => []
  | l :: ls => l ++ listJoin ls

/-- SHA-256 of a byte list, as the 32 digest bytes. -/
def sha256bytes (msg : List Nat) : List Nat :=
  let padded := padMessage msg
  let ws := toWords padded
  let blocks := splitBlocksAux (ws.length / 16) ws
  let Hf := blocks.foldl compressBlock sha256H0
  listJoin (Hf.map wordBytes)

/-- Lowercase hexadecimal digit for a value below 16. -/
def hexDigit (n : Nat) : Char := if n < 10 then Char.ofNat (48 + n) else Char.ofNat (87 + n)

/-- Lowercase hexadecimal rendering of a byte list. -/
def bytesToHex (bs : List Nat) : String :=
  String.mk (listJoin (bs.map (fun b => [hexDigit (b / 16), hexDigit (b % 16)])))

/-- Bytes of an ASCII string; agrees with Python utf-8 encoding on the ASCII
content strings hashed by this program. -/
def strBytes (s : String) : List Nat := s.data.map Char.toNat

/-- Hex digest of a string, as Python hashlib.sha256(content.encode()).hexdigest(). -/
def sha256hex (s : String) : String := bytesToHex (sha256bytes (strBytes s))

mutual
/-- JSON values, covering the shapes json.dumps serializes in this program. -/
inductive Json where
  | str : String → Json
  | num : Int → Json
  | arr : JsonList → Json
  | obj : JsonObj → Json
deriving DecidableEq
/-- A JSON array's elements. -/
inductive JsonList where
  | nil : JsonList
  | cons : Json → JsonList → JsonList
deriving DecidableEq
/-- A JSON object's key/value entries, in insertion order. -/
inductive JsonObj where
  | nil : JsonObj
  | cons : String → Json → JsonObj → JsonObj
deriving DecidableEq
end

/-- JSON escaping of one character (quote and backslash, the characters that
need escaping in the strings this program serializes). -/
def escChar (c : Char) : List Char :=
  if c = '"' then ['\\', '"'] else if c = '\\' then ['\\', '\\'] else [c]

/-- JSON escaping of a string body. -/
def jsonEscape (s : String) : String := String.mk (listJoin (s.data.map escChar))

/-- Insert a key/value pair into a key-sorted object, keeping keys sorted. -/
def jsonObjInsert (k : String) (v : Json) : JsonObj → JsonObj
  | .nil => .cons k v .nil
  | .cons k' v' rest =>
    if k ≤ k' then .cons k v (.cons k' v' rest) else .cons k' v' (jsonObjInsert k v rest)

/-- Sort an object's entries by key (insertion sort). -/
def jsonObjSort : JsonObj → JsonObj
  | .nil => .nil
  | .cons k v rest => jsonObjInsert k v (jsonObjSort rest)

mutual
/-- Recursively sort every object's keys, as json.dumps with sort_keys=True does. -/
def jsonSortKeys : Json → Json
  | .str s => .str s
  | .num n => .num n
  | .arr xs => .arr (jsonSortKeysList xs)
  | .obj kvs => .obj (jsonObjSort (jsonSortKeysObj kvs))
/-- Key-sorting pass over an array's elements. -/
def jsonSortKeysList : JsonList → JsonList
  | .nil => .nil
  | .cons x rest => .cons (jsonSortKeys x) (jsonSortKeysList rest)
/-- Key-sorting pass over an object's values. -/
def jsonSortKeysObj : JsonObj → JsonObj
  | .nil => .nil
  | .cons k v rest => .cons k (jsonSortKeys v) (jsonSortKeysObj rest)
end

mutual
/-- Serialization of a JSON value with Python json.dumps default separators. -/
def jsonDumpsRaw : Json → String
  | .str s => "\"" ++ jsonEscape s ++ "\""
  | .num n => toString n
  | .arr xs => "[" ++ jsonDumpsList xs ++ "]"
  | .obj kvs => "\x7b" ++ jsonDumpsObj kvs ++ "\x7d"
/-- Serialization of array elements, comma separated. -/
def jsonDumpsList : JsonList → String
  | .nil => ""
  | .cons x .nil => jsonDumpsRaw x
  | .cons x rest => jsonDumpsRaw x ++ ", " ++ jsonDumpsList rest
/-- Serialization of object entries, comma separated. -/
def jsonDumpsObj : JsonObj → String
  | .nil => ""
  | .cons k v .nil => "\"" ++ jsonEscape k ++ "\": " ++ jsonDumpsRaw v
  | .cons k v rest => "\"" ++ jsonEscape k ++ "\": " ++ jsonDumpsRaw v ++ ", " ++ jsonDumpsObj rest
end

/-- Python json.dumps(value, sort_keys=True). -/
def jsonDumps (j : Json) : String := jsonDumpsRaw (jsonSortKeys j)

/-- A block, with the fields Block.__init__ sets (src/blockchain/block.py).
Transactions are carried as their JSON-serializable values, as they are when
blocks are assembled from dicts or reconstructed from wire payloads. -/
structure Block where
  index : Nat
  previous_hash : String
  timestamp : Nat
  transactions : JsonList
  kemites_reward : Nat
  nonce1 : Nat
  nonce2 : Nat
  nonce3 : Nat
  difficulty : Nat
  version : String
  hash : String
deriving DecidableEq

/-- Block.calculate_hash: SHA-256 over the concatenation of index, previous
hash, timestamp, sorted-key JSON of the transactions, reward, the three
nonces, difficulty and version - in that order. -/
def calculateHash (b : Block) : String :=
  let transaction_data := jsonDumps (Json.arr b.transactions)
  let block_content :=
    toString b.index ++ b.previous_hash ++ toString b.timestamp ++ transaction_data ++
    toString b.kemites_reward ++ toString b.nonce1 ++ toString b.nonce2 ++ toString b.nonce3 ++
    toString b.difficulty ++ b.version
  sha256hex block_content

/-- Block.calculate_static_hash_content: the nonce-free content cached by the
miner - index, previous hash, timestamp, transaction JSON, reward, difficulty
and version, with the nonces meant to be appended after it. -/
def calculateStaticHashContent (b : Block) : String :=
  let transaction_data := jsonDumps (Json.arr b.transactions)
  toString b.index ++ b.previous_hash ++ toString b.timestamp ++ transaction_data ++
    toString b.kemites_reward ++ toString b.difficulty ++ b.version

/-- Block.__init__: stores the given fields and sets hash := calculate_hash()
of the other fields (any externally supplied hash value plays no part). -/
def Block.init (index : Nat) (previous_hash : String) (timestamp : Nat)
    (transactions : JsonList) (kemites_reward : Nat)
    (nonce1 : Nat) (nonce2 : Nat) (nonce3 : Nat) (difficulty : Nat)
    (version : String) : Block :=
  let b0 : Block :=
    { index := index, previous_hash := previous_hash, timestamp := timestamp,
      transactions := transactions, kemites_reward := kemites_reward,
      nonce1 := nonce1, nonce2 := nonce2, nonce3 := nonce3,
      difficulty := difficulty, version := version, hash := "" }
  { b0 with hash := calculateHash b0 }

/-- Python str.startswith: the argument is a character-prefix of the string. -/
def pyStartswith (s p : String) : Bool := p.data.isPrefixOf s.data

/-- The proof-of-work target "0" * difficulty. -/
def zerosTarget (d : Nat) : String := String.mk (List.replicate d '0')

/-- Number of leading '0' characters of a hex digest. -/
def leadingZeroCount (s : String) : Nat := (s.data.takeWhile (fun c => c = '0')).length

/-- One iteration of the mine_block loop body: bump nonce1, roll nonce1 into
nonce2 and nonce2 into nonce3 at 1,000,000, then rehash the cached static
content followed by the three nonces. -/
def mineBody (static : String) (b : Block) : Block :=
  let n1 := b.nonce1 + 1
  let nn :=
    if n1 ≥ 1000000 then
      let n2 := b.nonce2 + 1
      if n2 ≥ 1000000 then (0, 0, b.nonce3 + 1) else (0, n2, b.nonce3)
    else (n1, b.nonce2, b.nonce3)
  let h := sha256hex (static ++ toString nn.1 ++ toString nn.2.1 ++ toString nn.2.2)
  { b with nonce1 := nn.1, nonce2 := nn.2.1, nonce3 := nn.2.2, hash := h }

/-- The mine_block while-loop: run while the hash does not start with the
target, breaking once the iteration counter reaches max_iterations.  The
result flag is true exactly when the loop exits through the break (or the
fuel, which callers set above max_iterations, runs out); a false flag means
the loop exited through its condition, i.e. on target match.  The loop body
runs at most max(1, max_iterations) times, so fuel max_iterations + 1 makes
the recursion exact. -/
def mineGo (static target : String) (maxIterations : Nat) : Nat → Block → Nat → Block × Bool
  | _, b, 0 => (b, true)
  | iteration, b, fuel + 1 =>
    if pyStartswith b.hash target then (b, false)
    else
      let b' := mineBody static b
      let iteration' := iteration + 1
      if iteration' ≥ maxIterations then (b', true)
      else mineGo static target maxIterations iteration' b' fuel

/-- Block.mine_block(max_iterations): cache the static content, set the
target from the block's difficulty, and run the loop from iteration 0.  The
Bool records internally whether the iteration cap (break) ended the run. -/
def mineBlockRun (b : Block) (maxIterations : Nat) : Block × Bool :=
  mineGo (calculateStaticHashContent b) (zerosTarget b.difficulty) maxIterations 0 b
    (maxIterations + 1)

/-- The caller-visible outcome of Block.mine_block: the Python method returns
None and its one observable effect is the mutated block; no success or
failure indication reaches the caller. -/
def mineBlockResult (b : Block) (maxIterations : Nat) : Block := (mineBlockRun b maxIterations).1

/-- The chain state add_block reads and writes: the block list and the
configured difficulty (src/blockchain/blockchain.py). -/
structure ChainState where
  chain : List Block
  difficulty : Nat
deriving DecidableEq

/-- Out-of-domain default for chain[-1]; the source's chain always starts
with a genesis block, so the default is never consulted on reachable states. -/
def emptyBlock : Block :=
  { index := 0, previous_hash := "", timestamp := 0, transactions := .nil,
    kemites_reward := 0, nonce1 := 0, nonce2 := 0, nonce3 := 0,
    difficulty := 0, version := "", hash := "" }

/-- Blockchain.add_block: four checks in order - previous hash against the
tip, difficulty against the configured value, proof-of-work prefix, hash
recomputation - returning False and leaving the chain untouched on the first
failure, and appending the block only when all four pass. -/
def addBlock (st : ChainState) (block : Block) : Bool × ChainState :=
  let latest_block := st.chain.getLastD emptyBlock
  if block.previous_hash ≠ latest_block.hash then (false, st)
  else if block.difficulty ≠ st.difficulty then (false, st)
  else if ¬ pyStartswith block.hash (zerosTarget block.difficulty) then (false, st)
  else if block.hash ≠ calculateHash block then (false, st)
  else (true, { st with chain := st.chain ++ [block] })

/-- An admission-ledger entry: status ("pending" or "completed"), the logging
timestamp, and the snapshot of the enclosing block (src/blockchain/q_system.py). -/
structure LogEntry where
  status : String
  timestamp : ℚ
  block : Block
deriving DecidableEq

/-- A node-fault record: failure counter and last-failure time. -/
structure FaultRecord where
  failures : Nat
  last_failure : ℚ
deriving DecidableEq

/-- Python dict assignment d[k] = v on an association list: replace the
binding in place when the key is present, append it otherwise. -/
def dictSet {α : Type} : List (String × α) → String → α → List (String × α)
  | [], k, v => [(k, v)]
  | (k', v') :: rest, k, v =>
    if k' = k then (k, v) :: rest else (k', v') :: dictSet rest k v

/-- The Q system state: the global transaction log, the adaptive timeout
threshold, the learning rate, and the failed-node map.  Wall-clock readings
are passed to the operations explicitly. -/
structure QSystem where
  global_transaction_log : List (String × LogEntry)
  timeout_threshold : ℚ
  learning_rate : ℚ
  failed_nodes : List (String × FaultRecord)
deriving DecidableEq

/-- QSystem.__init__: empty log, threshold 30 seconds, learning rate 0.1,
no failed nodes. -/
def initialQSystem : QSystem :=
  { global_transaction_log := [], timeout_threshold := 30,
    learning_rate := 1/10, failed_nodes := [] }

/-- QSystem.log_transaction: False on a duplicate id with nothing changed;
otherwise insert a pending entry carrying the current time and the block
snapshot, and return True. -/
def logTransaction (q : QSystem) (transaction_id : String) (block : Block) (now : ℚ) :
    Bool × QSystem :=
  if (List.lookup transaction_id q.global_transaction_log).isSome then (false, q)
  else
    (true,
      { q with global_transaction_log := (dictSet q.global_transaction_log transaction_id
          { status := "pending", timestamp := now, block := block }) })

/-- QSystem.validate_transaction: "invalid" when the id is unknown,
"duplicate" when the entry is completed, "late" when the elapsed time
exceeds the timeout threshold, "valid" otherwise; the stored state is not
touched. -/
def validateTransaction (q : QSystem) (transaction_id : String) (now : ℚ) : String :=
  match List.lookup transaction_id q.global_transaction_log with
  | none => "invalid"
  | some entry =>
    let elapsed_time := now - entry.timestamp
    if entry.status = "completed" then "duplicate"
    else if elapsed_time > q.timeout_threshold then "late"
    else "valid"

/-- QSystem.mark_transaction_completed: set the entry's status to
"completed" when the id is known, otherwise only log an error. -/
def markTransactionCompleted (q : QSystem) (transaction_id : String) : QSystem :=
  match List.lookup transaction_id q.global_transaction_log with
  | some entry =>
    { q with global_transaction_log := (dictSet q.global_transaction_log transaction_id
        { entry with status := "completed" }) }
  | none => q

/-- QSystem.monitor_node: a first call creates the record with zero
failures; later calls increment the counter; either way the last-failure
time is refreshed and the call returns whether the stored counter now
exceeds 3. -/
def monitorNode (q : QSystem) (node_id : String) (now : ℚ) : Bool × QSystem :=
  let record : FaultRecord :=
    match List.lookup node_id q.failed_nodes with
    | none => { failures := 0, last_failure := now }
    | some r => { failures := r.failures + 1, last_failure := now }
  (decide (record.failures > 3), { q with failed_nodes := dictSet q.failed_nodes node_id record })

/-- A sequence of monitor_node calls on one node at the given times,
collecting each call's flag result. -/
def monitorCalls (q : QSystem) (node_id : String) : List ℚ → List Bool × QSystem
  | [] => ([], q)
  | t :: ts =>
    let r := monitorNode q node_id t
    let rest := monitorCalls r.2 node_id ts
    (r.1 :: rest.1, rest.2)

/-- QSystem.adapt_timeout: grow the threshold by the learning rate when
congested, shrink it by the learning rate but never below 5 when smooth,
leave it alone on any other signal. -/
def adaptTimeout (q : QSystem) (network_conditions : String) : QSystem :=
  if network_conditions = "congested" then
    { q with timeout_threshold := q.timeout_threshold + q.learning_rate * q.timeout_threshold }
  else if network_conditions = "smooth" then
    { q with timeout_threshold := (max 5
        (q.timeout_threshold - q.learning_rate * q.timeout_threshold)) }
  else q

/-- QSystem.recover_failed_nodes: delete every fault record whose last
failure lies strictly more than 300 seconds in the past. -/
def recoverFailedNodes (q : QSystem) (now : ℚ) : QSystem :=
  { q with failed_nodes := (q.failed_nodes.filter
      (fun kv => ! decide (now - kv.2.last_failure > 300))) }

/-- A transaction as it appears in a wire payload or broadcast dict: the
fields the dispatcher reads, with transaction_id optional because the code
fetches it with dict.get (src/blockchain/p2p_network.py). -/
structure TxWire where
  sender : Json
  recipient : Json
  amount_kem : Json
  transaction_id : Option String
deriving DecidableEq

/-- A block wire payload: index, previous_hash, timestamp and transactions
are read with mandatory indexing, the reward, nonces and difficulty with
dict.get defaults, and any hash field sent on the wire is never read by the
reconstruction. -/
structure BlockWire where
  index : Nat
  previous_hash : String
  timestamp : Nat
  transactions : JsonList
  kemites_reward : Option Nat
  nonce1 : Option Nat
  nonce2 : Option Nat
  nonce3 : Option Nat
  difficulty : Option Nat
  hash : String
deriving DecidableEq

/-- The Block(...) call in the dispatcher's block branch: reward and nonces
default to 0, difficulty to the chain's configured difficulty, version to
the constructor default "4.0"; the constructor then computes the stored
hash itself. -/
def reconstructBlock (block_data : BlockWire) (chainDifficulty : Nat) : Block :=
  Block.init block_data.index block_data.previous_hash block_data.timestamp
    block_data.transactions (block_data.kemites_reward.getD 0) (block_data.nonce1.getD 0)
    (block_data.nonce2.getD 0) (block_data.nonce3.getD 0)
    (block_data.difficulty.getD chainDifficulty) "4.0"

/-- The node state the dispatcher touches: the chain, the Q system, the
pending pool, and the peer set. -/
structure SystemState where
  chain : ChainState
  qsys : QSystem
  pending : List TxWire
  peers : List (String × Nat)
deriving DecidableEq

/-- The data part of a wire envelope, as the branch that reads it parses it. -/
inductive MsgData where
  | txData : TxWire → MsgData
  | blockData : BlockWire → MsgData
  | rawData : Json → MsgData
deriving DecidableEq

/-- A wire envelope: a type tag and its data. -/
structure WireMessage where
  type : String
  data : MsgData
deriving DecidableEq

/-- What handle_client does with one message: send a JSON reply (with the
possibly updated state and the envelopes it forwarded to peers - the
dispatcher forwards none), or hit the exception path, which sends nothing. -/
inductive HandlerOutcome where
  | reply : Json → SystemState → List WireMessage → HandlerOutcome
  | failure : SystemState → HandlerOutcome
deriving DecidableEq

/-- Python str(x) on an optional string, as an f-string renders it: None
prints as "None". -/
def optStr : Option String → String
  | none => "None"
  | some s => s

/-- The success reply of the transaction branch. -/
def successResponse (tid : String) : Json :=
  Json.obj (.cons "status" (.str "success")
    (.cons "message" (.str ("Transaction " ++ tid ++ " added successfully.")) .nil))

/-- The failure reply of the transaction branch. -/
def failedResponse : Json :=
  Json.obj (.cons "status" (.str "failed")
    (.cons "message" (.str "Transaction addition failed.") .nil))

/-- The reply carrying a validation classification. -/
def classificationResponse (cls tid : String) : Json :=
  Json.obj (.cons "status" (.str cls)
    (.cons "message" (.str ("Transaction " ++ tid ++ " is " ++ cls ++ ".")) .nil))

/-- The reply after a block is appended. -/
def blockAddedResponse (idx : Nat) : Json :=
  Json.obj (.cons "status" (.str "block_added")
    (.cons "message" (.str ("Block " ++ toString idx ++ " added successfully.")) .nil))

/-- The reply after a block is rejected. -/
def blockRejectedResponse : Json :=
  Json.obj (.cons "status" (.str "block_rejected")
    (.cons "message" (.str "Block validation failed.") .nil))

/-- The reply for an envelope type the dispatcher does not know. -/
def unknownTypeResponse : Json :=
  Json.obj (.cons "status" (.str "error")
    (.cons "reason" (.str "unknown_message_type") .nil))

/-- Modelled from the spec: Blockchain.add_transaction is invoked by the
dispatcher and the HTTP handlers but is not defined in the reviewed core;
per the spec the transaction branch attempts to add the transaction to the
pending pool on success.  Modelled as appending to the pool and succeeding. -/
def addTransaction (st : SystemState) (t : TxWire) : Bool × SystemState :=
  (true, { st with pending := st.pending ++ [t] })

/-- P2PNode.handle_client's dispatch on one parsed message: the transaction
branch validates the id against the Q system and tries to add the
transaction; the block branch reconstructs a Block from the payload and
offers it to add_block; every other type is answered with the
unknown_message_type error and nothing else happens.  A payload whose shape
does not fit the branch reading it lands on the exception path. -/
def handleMessage (st : SystemState) (msg : WireMessage) (now : ℚ) : HandlerOutcome :=
  if msg.type = "transaction" then
    match msg.data with
    | .txData t =>
      let transaction_id := t.transaction_id
      let validation_result :=
        match transaction_id with
        | none => "invalid"
        | some tid => validateTransaction st.qsys tid now
      if validation_result = "valid" then
        let res := addTransaction st t
        if res.1 then .reply (successResponse (optStr transaction_id)) res.2 []
        else .reply failedResponse res.2 []
      else .reply (classificationResponse validation_result (optStr transaction_id)) st []
    | _ => .failure st
  else if msg.type = "block" then
    match msg.data with
    | .blockData bd =>
      let new_block := reconstructBlock bd st.chain.difficulty
      let res := addBlock st.chain new_block
      if res.1 then .reply (blockAddedResponse new_block.index) { st with chain := res.2 } []
      else .reply blockRejectedResponse { st with chain := res.2 } []
    | _ => .failure st
  else .reply unknownTypeResponse st []

/-- P2PNode.broadcast_transaction: walk the peer list and, before each send,
overwrite the transaction's transaction_id with the rendered current time,
then send the envelope to that peer.  The clock readings str(time.time())
are supplied as the times list, one per iteration; the result is the
transaction dict as the loop leaves it, with the per-peer sends. -/
def broadcastTransaction :
    List (String × Nat) → TxWire → List String → TxWire × List ((String × Nat) × TxWire)
  | [], tx, _ => (tx, [])
  | _ :: _, tx, [] => (tx, [])
  | p :: ps, tx, t :: ts =>
    let tx' := { tx with transaction_id := some t }
    let rest := broadcastTransaction ps tx' ts
    (rest.1, (p, tx') :: rest.2)

/-- A block as Block.__init__ builds it for index 1, previous hash "abc",
timestamp 1700000000, no transactions, zero reward, starting nonces (7, 0, 0),
difficulty 1, version "4.0"; the concrete mining start state examined below. -/
def c1Start : Block := Block.init 1 "abc" 1700000000 .nil 0 7 0 0 1 "4.0"

/-- The block state mine_block leaves when run on c1Start: one loop iteration
moves nonce1 to 8, where the hash of static-content-then-nonces meets the
difficulty-1 target. -/
def c1Mined : Block :=
  { index := 1, previous_hash := "abc", timestamp := 1700000000, transactions := .nil,
    kemites_reward := 0, nonce1 := 8, nonce2 := 0, nonce3 := 0, difficulty := 1,
    version := "4.0",
    hash := "052c87066d671bee5ce731b58ee5f76d28b5e9e607893c445cf22ade309d5fb3" }

/-- A difficulty-2 mining start state with nonces (0, 0, 0). -/
def c3Start : Block := Block.init 2 "abc" 1700000000 .nil 0 0 0 0 2 "4.0"

/-- The block state mine_block leaves when run on c3Start with
max_iterations = 1: the cap is hit after one iteration, at nonce1 = 1, with a
hash that does not meet the difficulty-2 target. -/
def c3Capped : Block :=
  { index := 2, previous_hash := "abc", timestamp := 1700000000, transactions := .nil,
    kemites_reward := 0, nonce1 := 1, nonce2 := 0, nonce3 := 0, difficulty := 2,
    version := "4.0",
    hash := "a412c4728fd747a6629e409462afa0338969ae05a79dd2a438abb26f6987988f" }

/-- A difficulty-0 mining start state whose constructor hash happens to begin
with a '0' hex character. -/
def c4Start : Block := Block.init 1 "abc" 1700000001 .nil 0 0 0 0 0 "4.0"

/-- The block mine_block returns for c4Start: the empty target is satisfied
immediately, so the block is unchanged - and its hash has one leading zero,
not zero of them. -/
def c4Mined : Block :=
  { index := 1, previous_hash := "abc", timestamp := 1700000001, transactions := .nil,
    kemites_reward := 0, nonce1 := 0, nonce2 := 0, nonce3 := 0, difficulty := 0,
    version := "4.0",
    hash := "01431a96d3271b4830230264e96022c7f813dea56225966b299cb18821e4426b" }

/-- A difficulty-1 block whose current hash already begins with '0': the
mining loop exits immediately on target match without touching it. -/
def c4wStart : Block :=
  { index := 9, previous_hash := "p", timestamp := 1, transactions := .nil,
    kemites_reward := 0, nonce1 := 0, nonce2 := 0, nonce3 := 0, difficulty := 1,
    version := "4.0", hash := "0abc" }

/-- A block literal with an opaque hash, used as inert ledger payload in
concrete admission-control states. -/
def sampleBlock : Block :=
  { index := 3, previous_hash := "p", timestamp := 1700000000, transactions := .nil,
    kemites_reward := 0, nonce1 := 0, nonce2 := 0, nonce3 := 0, difficulty := 4,
    version := "4.0", hash := "h" }

/-- A Q system whose log holds one completed transaction "t1" logged at time 0. -/
def qDup : QSystem :=
  { global_transaction_log := [("t1", { status := "completed", timestamp := 0, block := sampleBlock })],
    timeout_threshold := 30, learning_rate := 1/10, failed_nodes := [] }

/-- A Q system whose log holds one pending transaction "t1" logged at time 0. -/
def qPend : QSystem :=
  { global_transaction_log := [("t1", { status := "pending", timestamp := 0, block := sampleBlock })],
    timeout_threshold := 30, learning_rate := 1/10, failed_nodes := [] }

/-- A Q system with one fault record for node "n1", two failures, last at time 0. -/
def qFault : QSystem :=
  { global_transaction_log := [], timeout_threshold := 30, learning_rate := 1/10,
    failed_nodes := [("n1", { failures := 2, last_failure := 0 })] }

/-- A genesis-style block for a difficulty-0 chain, as create_genesis_block
builds it (hash recomputed by the constructor). -/
def g0Block : Block := Block.init 0 "0" 1700000000 .nil 0 0 0 0 0 "4.0"

/-- A successor block for g0Block: previous hash is g0Block's hash, difficulty 0. -/
def b1Block : Block := Block.init 1 g0Block.hash 1700000007 .nil 0 0 0 0 0 "4.0"

/-- A one-block chain at difficulty 0. -/
def chain0 : ChainState := { chain := [g0Block], difficulty := 0 }

/-- A minimal node state with one known peer, used to probe the dispatcher. -/
def anchorProbeState : SystemState :=
  { chain := { chain := [g0Block], difficulty := 4 }, qsys := initialQSystem,
    pending := [], peers := [("peer.example.com", 5000)] }

/-- Concrete peers for the broadcast loop. -/
def wPeers : List (String × Nat) := [("host-a", 5001), ("host-b", 5002)]

/-- A broadcast transaction dict carrying a hash-derived id before the loop runs. -/
def wTx : TxWire :=
  { sender := .str "alice", recipient := .str "bob", amount_kem := .num 5,
    transaction_id := some "deadbeef" }

/-- The rendered clock values str(time.time()) observed by the two loop
iterations. -/
def wTimes : List String := ["1731000000.25", "1731000000.75"]

/-- Looking up a key just written by dict assignment yields the written value. -/
theorem lookup_dictSet_self {α : Type} (l : List (String × α)) (k : String) (v : α) :
    List.lookup k (dictSet l k v) = some v := by
  induction l with
  | nil => simp [dictSet, List.lookup]
  | cons hd tl ih =>
    obtain ⟨k₁, v₁⟩ := hd
    by_cases h : k₁ = k
    · subst h; simp [dictSet, List.lookup]
    · have hbeq : (k == k₁) = false := beq_eq_false_iff_ne.mpr (Ne.symm h)
      simp [dictSet, h, List.lookup, hbeq, ih]

/-- One adapt_timeout step keeps the threshold at 5 or above and leaves the
learning rate alone, for any signal string. -/
theorem adaptTimeout_floor (q : QSystem) (c : String)
    (h5 : 5 ≤ q.timeout_threshold) (hlr : 0 ≤ q.learning_rate) :
    5 ≤ (adaptTimeout q c).timeout_threshold ∧ (adaptTimeout q c).learning_rate = q.learning_rate := by
  unfold adaptTimeout
  split_ifs with hc hs
  · refine ⟨?_, rfl⟩
    have hnn : 0 ≤ q.learning_rate * q.timeout_threshold :=
      mul_nonneg hlr (le_trans (by norm_num) h5)
    simpa using le_add_of_le_of_nonneg h5 hnn
  · exact ⟨le_max_left 5 _, rfl⟩
  · exact ⟨h5, rfl⟩

/-- A mine_block loop run that ends with a false flag ended through the loop
condition, so the final hash starts with the target. -/
theorem mineGo_false_flag_meets_target (static target : String) (m : Nat) :
    ∀ (fuel iteration : Nat) (b b' : Block),
      mineGo static target m iteration b fuel = (b', false) →
      pyStartswith b'.hash target = true := by
  intro fuel
  induction fuel with
  | zero => intro it b b' h; simp [mineGo] at h
  | succ n ih =>
    intro it b b' h
    unfold mineGo at h
    by_cases hs : pyStartswith b.hash target
    · simp [hs] at h
      exact h ▸ hs
    · simp [hs] at h
      by_cases hit : it + 1 ≥ m
      · simp [hit] at h
      · simp [hit] at h
        exact ih _ _ _ h

/-- Running monitor_node repeatedly on a node that already has a fault record
with c failures: the i-th further call (0-based) reports whether c + 1 + i
exceeds 3, and afterwards the stored record holds c plus the number of calls,
stamped with the last call time. -/
theorem monitorCalls_of_lookup_some (id : String) (ts : List ℚ) :
    ∀ (q : QSystem) (r : FaultRecord), List.lookup id q.failed_nodes = some r →
      (monitorCalls q id ts).1 =
        (List.range ts.length).map (fun i => decide (3 < r.failures + 1 + i)) ∧
      List.lookup id (monitorCalls q id ts).2.failed_nodes =
        some { failures := r.failures + ts.length, last_failure := ts.getLastD r.last_failure } := by
  induction ts with
  | nil =>
    intro q r h
    simp [monitorCalls, h]
  | cons t ts ih =>
    intro q r h
    have hstep : monitorNode q id t =
        (decide (3 < r.failures + 1),
         { q with failed_nodes := (dictSet q.failed_nodes id
            { failures := r.failures + 1, last_failure := t }) }) := by
      simp [monitorNode, h]
    have hlook : List.lookup id
        (dictSet q.failed_nodes id { failures := r.failures + 1, last_failure := t }) =
        some { failures := r.failures + 1, last_failure := t } :=
      lookup_dictSet_self _ _ _
    obtain ⟨ih1, ih2⟩ := ih
      { q with failed_nodes := (dictSet q.failed_nodes id
          { failures := r.failures + 1, last_failure := t }) }
      { failures := r.failures + 1, last_failure := t } hlook
    constructor
    · show (monitorNode q id t).1 :: _ = _
      rw [hstep]
      simp only [List.length_cons, List.range_succ_eq_map, List.map_cons, List.map_map,
        List.cons.injEq]
      refine ⟨trivial, ?_⟩
      rw [ih1]
      apply List.map_congr_left
      intro i _
      simp only [Function.comp]
      exact decide_eq_decide.mpr (by omega)
    · show List.lookup id (monitorCalls (monitorNode q id t).2 id ts).2.failed_nodes = _
      rw [hstep]
      rw [ih2]
      simp only [List.length_cons, List.getLastD_cons, Option.some.injEq, FaultRecord.mk.injEq]
      exact ⟨by omega, trivial⟩

/-- Running monitor_node repeatedly on a node with no fault record yet: the
i-th call (0-based) reports whether i exceeds 3 - so the first flag comes on
the fifth call, the one that raises the stored counter to 4 - and afterwards
the stored counter is one less than the number of calls. -/
theorem monitorCalls_fresh (q : QSystem) (id : String) (ts : List ℚ)
    (h : List.lookup id q.failed_nodes = none) :
    (monitorCalls q id ts).1 = (List.range ts.length).map (fun i => decide (3 < i)) ∧
    (ts ≠ [] → List.lookup id (monitorCalls q id ts).2.failed_nodes =
      some { failures := ts.length - 1, last_failure := ts.getLastD 0 }) := by
  cases ts with
  | nil => exact ⟨rfl, fun hne => absurd rfl hne⟩
  | cons t ts =>
    have hstep : monitorNode q id t =
        (false,
         { q with failed_nodes := (dictSet q.failed_nodes id
            { failures := 0, last_failure := t }) }) := by
      simp [monitorNode, h]
    have hlook : List.lookup id
        (dictSet q.failed_nodes id { failures := 0, last_failure := t }) =
        some { failures := 0, last_failure := t } :=
      lookup_dictSet_self _ _ _
    obtain ⟨ih1, ih2⟩ := monitorCalls_of_lookup_some id ts
      { q with failed_nodes := (dictSet q.failed_nodes id
          { failures := 0, last_failure := t }) }
      { failures := 0, last_failure := t } hlook
    constructor
    · show (monitorNode q id t).1 :: _ = _
      rw [hstep]
      simp only [List.length_cons, List.range_succ_eq_map, List.map_cons, List.map_map,
        List.cons.injEq]
      refine ⟨by decide, ?_⟩
      rw [ih1]
      apply List.map_congr_left
      intro i _
      simp only [Function.comp]
      exact decide_eq_decide.mpr (by omega)
    · intro _
      show List.lookup id (monitorCalls (monitorNode q id t).2 id ts).2.failed_nodes = _
      rw [hstep]
      rw [ih2]
      simp only [List.length_cons, List.getLastD_cons, Option.some.injEq, FaultRecord.mk.injEq]
      exact ⟨by omega, trivial⟩

/-- The broadcast loop sends each peer the transaction stamped with that
iteration's clock string, in peer order, and the transaction dict ends up
carrying the last stamp (or is untouched when the loop never runs). -/
theorem broadcastTransaction_core :
    ∀ (peers : List (String × Nat)) (tx : TxWire) (times : List String),
      times.length = peers.length →
      ((broadcastTransaction peers tx times).2.map (fun s => s.2.transaction_id) =
        times.map some ∧
       (broadcastTransaction peers tx times).2.map Prod.fst = peers ∧
       (times = [] → broadcastTransaction peers tx times = (tx, [])) ∧
       (times ≠ [] → (broadcastTransaction peers tx times).1.transaction_id = times.getLast?)) := by
  intro peers
  induction peers with
  | nil =>
    intro tx times hlen
    have : times = [] := List.eq_nil_of_length_eq_zero hlen
    subst this
    exact ⟨rfl, rfl, fun _ => rfl, fun hne => absurd rfl hne⟩
  | cons p ps ih =>
    intro tx times hlen
    cases times with
    | nil => simp at hlen
    | cons t ts =>
      have hlen' : ts.length = ps.length := by simpa using hlen
      obtain ⟨ih1, ih2, ih3, ih4⟩ := ih { tx with transaction_id := some t } ts hlen'
      refine ⟨?_, ?_, ?_, ?_⟩
      · simp only [broadcastTransaction, List.map_cons]
        rw [ih1]
      · simp only [broadcastTransaction, List.map_cons]
        rw [ih2]
      · intro hcontra; cases hcontra
      · intro _
        simp only [broadcastTransaction]
        cases ts with
        | nil =>
          rw [ih3 rfl]
          simp
        | cons t' ts' =>
          rw [ih4 (by simp)]
          simp [List.getLast?_cons_cons]

/-- Claim C2: add_block performs its four checks in this order - previous
hash against the tip, difficulty against the configured value, proof-of-work
zero run, hash recomputation - short-circuiting on the first failure; any
failure returns False with the chain state (hence its length) unchanged, and
only when all four pass is the block appended. -/
theorem c2_append_checks_in_order (st : ChainState) (b : Block) (hne : st.chain ≠ []) :
    (b.previous_hash ≠ (st.chain.getLastD emptyBlock).hash → addBlock st b = (false, st)) ∧
    (b.previous_hash = (st.chain.getLastD emptyBlock).hash → b.difficulty ≠ st.difficulty →
      addBlock st b = (false, st)) ∧
    (b.previous_hash = (st.chain.getLastD emptyBlock).hash → b.difficulty = st.difficulty →
      pyStartswith b.hash (zerosTarget b.difficulty) = false → addBlock st b = (false, st)) ∧
    (b.previous_hash = (st.chain.getLastD emptyBlock).hash → b.difficulty = st.difficulty →
      pyStartswith b.hash (zerosTarget b.difficulty) = true → b.hash ≠ calculateHash b →
      addBlock st b = (false, st)) ∧
    (b.previous_hash = (st.chain.getLastD emptyBlock).hash → b.difficulty = st.difficulty →
      pyStartswith b.hash (zerosTarget b.difficulty) = true → b.hash = calculateHash b →
      addBlock st b = (true, { st with chain := st.chain ++ [b] })) ∧
    ((addBlock st b).1 = false → (addBlock st b).2 = st) := by
  refine ⟨?_, ?_, ?_, ?_, ?_, ?_⟩
  · intro h1; unfold addBlock; split_ifs <;> simp_all
  · intro h1 h2; unfold addBlock; split_ifs <;> simp_all
  · intro h1 h2 h3; unfold addBlock; split_ifs <;> simp_all
  · intro h1 h2 h3 h4; unfold addBlock; split_ifs <;> simp_all
  · intro h1 h2 h3 h4; unfold addBlock; split_ifs <;> simp_all
  · unfold addBlock; split_ifs <;> (try simp) <;> split_ifs <;> simp

/-- Witness for C2 at a concrete chain: a well-formed difficulty-0 successor
is appended, and a block with a wrong previous hash is rejected with the
state unchanged. -/
theorem c2_append_checks_in_order_witness :
    addBlock chain0 b1Block = (true, { chain0 with chain := chain0.chain ++ [b1Block] }) ∧
    addBlock chain0 { b1Block with previous_hash := "nope" } = (false, chain0) := by
  constructor
  · exact (c2_append_checks_in_order chain0 b1Block (by simp [chain0])).2.2.2.2.1
      rfl rfl rfl rfl
  · exact (c2_append_checks_in_order chain0 { b1Block with previous_hash := "nope" }
      (by simp [chain0])).1 (by decide)

/-- Claim C5 counterexample: a bitcoin_anchor envelope received by the
dispatcher is answered with the unknown_message_type error reply; nothing is
stored and nothing is re-broadcast, although a peer is known. -/
theorem c5_counterexample_anchor_gets_unknown_reply :
    handleMessage anchorProbeState
        { type := "bitcoin_anchor", data := .rawData (.str "anchor-record") } 0 =
      .reply unknownTypeResponse anchorProbeState [] := rfl

/-- Claim C5 (amended): the dispatch recognizes exactly the envelope types
transaction and block; any other type - bitcoin_anchor and
request_anchor_sync included - is answered with the unknown_message_type
error reply, with the node state unchanged and no envelope forwarded. -/
theorem c5_unknown_type_reply (st : SystemState) (t : String) (d : MsgData) (now : ℚ)
    (h1 : t ≠ "transaction") (h2 : t ≠ "block") :
    handleMessage st { type := t, data := d } now = .reply unknownTypeResponse st [] := by
  simp [handleMessage, h1, h2]

/-- Witness for the amended C5 at the two anchor message types. -/
theorem c5_unknown_type_reply_witness :
    handleMessage anchorProbeState
        { type := "request_anchor_sync", data := .rawData (.str "r") } 0 =
      .reply unknownTypeResponse anchorProbeState [] ∧
    handleMessage anchorProbeState
        { type := "bitcoin_anchor", data := .rawData (.str "a") } 7 =
      .reply unknownTypeResponse anchorProbeState [] :=
  ⟨c5_unknown_type_reply anchorProbeState "request_anchor_sync" (.rawData (.str "r")) 0
      (by decide) (by decide),
   c5_unknown_type_reply anchorProbeState "bitcoin_anchor" (.rawData (.str "a")) 7
      (by decide) (by decide)⟩

/-- Claim C6: log_transaction returns False and leaves the ledger unchanged
on a repeated id, and validate_transaction classifies an unknown id as
"invalid", a completed entry as "duplicate", a pending entry past the
timeout threshold as "late", and a pending entry within it as "valid" -
validate_transaction writes nothing, as its embedding returns only the
classification. -/
theorem c6_log_once_and_validate_classes (q : QSystem) (id : String) (b b' : Block)
    (t t' now : ℚ) :
    ((logTransaction q id b t).1 = true →
      logTransaction (logTransaction q id b t).2 id b' t' =
        (false, (logTransaction q id b t).2)) ∧
    (List.lookup id q.global_transaction_log = none → validateTransaction q id now = "invalid") ∧
    (∀ e, List.lookup id q.global_transaction_log = some e → e.status = "completed" →
      validateTransaction q id now = "duplicate") ∧
    (∀ e, List.lookup id q.global_transaction_log = some e → e.status = "pending" →
      now - e.timestamp > q.timeout_threshold → validateTransaction q id now = "late") ∧
    (∀ e, List.lookup id q.global_transaction_log = some e → e.status = "pending" →
      ¬(now - e.timestamp > q.timeout_threshold) → validateTransaction q id now = "valid") := by
  refine ⟨?_, ?_, ?_, ?_, ?_⟩
  · intro h
    by_cases hl : (List.lookup id q.global_transaction_log).isSome
    · simp [logTransaction, hl] at h
    · have hfst : logTransaction q id b t =
          (true, { q with global_transaction_log := (dictSet q.global_transaction_log id
            { status := "pending", timestamp := t, block := b }) }) := by
        simp [logTransaction, hl]
      rw [hfst]
      simp [logTransaction, lookup_dictSet_self]
  · intro h; simp [validateTransaction, h]
  · intro e he hst; simp [validateTransaction, he, hst]
  · intro e he hst hlate; simp [validateTransaction, he, hst, hlate]
  · intro e he hst hval; simp [validateTransaction, he, hst, hval]

/-- Witness for C6 on concrete ledger states. -/
theorem c6_log_once_and_validate_classes_witness :
    logTransaction (logTransaction initialQSystem "t1" sampleBlock 0).2 "t1" sampleBlock 1 =
      (false, (logTransaction initialQSystem "t1" sampleBlock 0).2) ∧
    validateTransaction initialQSystem "t9" 0 = "invalid" ∧
    validateTransaction qDup "t1" 0 = "duplicate" ∧
    validateTransaction qPend "t1" 31 = "late" ∧
    validateTransaction qPend "t1" 10 = "valid" := by
  refine ⟨?_, ?_, ?_, ?_, ?_⟩
  · exact (c6_log_once_and_validate_classes initialQSystem "t1" sampleBlock sampleBlock 0 1 0).1
      (by decide)
  · exact (c6_log_once_and_validate_classes initialQSystem "t9" sampleBlock sampleBlock 0 0 0).2.1
      (by decide)
  · exact (c6_log_once_and_validate_classes qDup "t1" sampleBlock sampleBlock 0 0 0).2.2.1
      { status := "completed", timestamp := 0, block := sampleBlock } (by decide) rfl
  · exact (c6_log_once_and_validate_classes qPend "t1" sampleBlock sampleBlock 0 0 31).2.2.2.1
      { status := "pending", timestamp := 0, block := sampleBlock } (by decide) rfl
      (by norm_num [qPend])
  · exact (c6_log_once_and_validate_classes qPend "t1" sampleBlock sampleBlock 0 0 10).2.2.2.2
      { status := "pending", timestamp := 0, block := sampleBlock } (by decide) rfl
      (by norm_num [qPend])

/-- Claim C7 counterexample: six monitor_node calls on a fresh node return
[false, false, false, false, true, true] - the fourth call does not flag, and
the sixth call flags although the count was already above 3 before it, so
flagging is not "exactly on the call that brings the count above 3" read as
the fourth call - and a fault record whose last failure is exactly 300
seconds old survives recover_failed_nodes, against "300 or more". -/
theorem c7_counterexample_boundary_and_repeat_flags :
    (monitorCalls initialQSystem "n1" [0, 1, 2, 3, 4, 5]).1 =
      [false, false, false, false, true, true] ∧
    (recoverFailedNodes qFault 300).failed_nodes =
      [("n1", { failures := 2, last_failure := 0 })] := by
  refine ⟨by decide, ?_⟩
  have h300 : ¬((300 : ℚ) - 0 > 300) := by norm_num
  simp [recoverFailedNodes, qFault, h300]

/-- Claim C7 (amended): monitor_node flags exactly the calls after which the
stored failure counter exceeds 3; on a fresh node the i-th call (0-based)
flags iff i > 3, so the first flag comes on the fifth call - the call that
records the fourth counted failure, the counter being created at 0 - and
recover_failed_nodes deletes exactly the fault records whose last failure
lies strictly more than 300 seconds in the past. -/
theorem c7_monitor_flag_and_recovery (q : QSystem) (id : String) (ts : List ℚ) (now : ℚ) :
    (List.lookup id q.failed_nodes = none →
      (monitorCalls q id ts).1 = (List.range ts.length).map (fun i => decide (3 < i))) ∧
    (List.lookup id q.failed_nodes = none → ts ≠ [] →
      List.lookup id (monitorCalls q id ts).2.failed_nodes =
        some { failures := ts.length - 1, last_failure := ts.getLastD 0 }) ∧
    (∀ kv ∈ q.failed_nodes, 300 < now - kv.2.last_failure →
      kv ∉ (recoverFailedNodes q now).failed_nodes) ∧
    (∀ kv ∈ q.failed_nodes, now - kv.2.last_failure ≤ 300 →
      kv ∈ (recoverFailedNodes q now).failed_nodes) := by
  refine ⟨fun h => (monitorCalls_fresh q id ts h).1,
    fun h hne => (monitorCalls_fresh q id ts h).2 hne, ?_, ?_⟩
  · intro kv _ hgt hmem'
    have hkeep := (List.mem_filter.mp hmem').2
    simp only [Bool.not_eq_true', decide_eq_false_iff_not] at hkeep
    exact hkeep hgt
  · intro kv hmem hle
    refine List.mem_filter.mpr ⟨hmem, ?_⟩
    simp only [Bool.not_eq_true', decide_eq_false_iff_not]
    exact not_lt.mpr hle

/-- Witness for the amended C7 on concrete states. -/
theorem c7_monitor_flag_and_recovery_witness :
    (monitorCalls initialQSystem "n1" [0, 1, 2, 3, 4]).1 =
      [false, false, false, false, true] ∧
    List.lookup "n1" (monitorCalls initialQSystem "n1" [0, 1, 2, 3, 4]).2.failed_nodes =
      some { failures := 4, last_failure := 4 } ∧
    ("n1", ({ failures := 2, last_failure := 0 } : FaultRecord)) ∉
      (recoverFailedNodes qFault 301).failed_nodes ∧
    ("n1", ({ failures := 2, last_failure := 0 } : FaultRecord)) ∈
      (recoverFailedNodes qFault 300).failed_nodes := by
  have ha := c7_monitor_flag_and_recovery initialQSystem "n1" [0, 1, 2, 3, 4] 0
  have hb := c7_monitor_flag_and_recovery qFault "n1" [] 301
  have hc := c7_monitor_flag_and_recovery qFault "n1" [] 300
  refine ⟨?_, ?_, ?_, ?_⟩
  · exact (ha.1 (by decide)).trans (by decide)
  · exact (ha.2.1 (by decide) (by decide)).trans (by decide)
  · exact hb.2.2.1 ("n1", { failures := 2, last_failure := 0 }) (by decide) (by norm_num [qFault])
  · exact hc.2.2.2 ("n1", { failures := 2, last_failure := 0 }) (by decide) (by norm_num [qFault])

/-- Claim C8: starting from the initial 30-second threshold, no sequence of
adapt_timeout signals - congested, smooth, or anything else - ever brings
the timeout threshold below 5 seconds. -/
theorem c8_timeout_threshold_never_below_five (signals : List String) :
    5 ≤ (signals.foldl adaptTimeout initialQSystem).timeout_threshold := by
  have gen : ∀ (sigs : List String) (q : QSystem),
      5 ≤ q.timeout_threshold → 0 ≤ q.learning_rate →
        5 ≤ (sigs.foldl adaptTimeout q).timeout_threshold := by
    intro sigs
    induction sigs with
    | nil => intro q h _; simpa using h
    | cons c cs ih =>
      intro q h5 hlr
      obtain ⟨h5', heq⟩ := adaptTimeout_floor q c h5 hlr
      exact ih (adaptTimeout q c) h5' (by rw [heq]; exact hlr)
  exact gen signals initialQSystem (by norm_num [initialQSystem]) (by norm_num [initialQSystem])

/-- Claim C9: the dispatcher's block reconstruction never reads the wire
hash field - two payloads differing only in it reconstruct the same Block -
and the reconstructed block's stored hash is the constructor's recomputation
of its other fields. -/
theorem c9_reconstruction_ignores_wire_hash (w : BlockWire) (h1 h2 : String) (d : Nat) :
    reconstructBlock { w with hash := h1 } d = reconstructBlock { w with hash := h2 } d ∧
    (reconstructBlock w d).hash = calculateHash (reconstructBlock w d) :=
  ⟨rfl, rfl⟩

/-- Claim C10: broadcast_transaction overwrites the transaction's id with the
rendered clock before every per-peer send - each peer i receives the i-th
clock string as id, the dict ends up carrying the last clock string (so a
hash-derived id absent from the clock strings is lost), and distinct clock
readings give every peer a distinct id. -/
theorem c10_broadcast_overwrites_transaction_id (peers : List (String × Nat)) (tx : TxWire)
    (times : List String) (hlen : times.length = peers.length) (hne : peers ≠ []) :
    ((broadcastTransaction peers tx times).2.map (fun s => s.2.transaction_id) =
      times.map some) ∧
    ((broadcastTransaction peers tx times).2.map Prod.fst = peers) ∧
    ((broadcastTransaction peers tx times).1.transaction_id = times.getLast?) ∧
    (times.Nodup →
      ((broadcastTransaction peers tx times).2.map (fun s => s.2.transaction_id)).Nodup) ∧
    (tx.transaction_id ∉ times.map some →
      (broadcastTransaction peers tx times).1.transaction_id ≠ tx.transaction_id) := by
  obtain ⟨h1, h2, h3, h4⟩ := broadcastTransaction_core peers tx times hlen
  have htne : times ≠ [] := by
    intro hcontra
    subst hcontra
    exact hne (List.eq_nil_of_length_eq_zero hlen.symm)
  refine ⟨h1, h2, h4 htne, ?_, ?_⟩
  · intro hnd
    rw [h1]
    exact hnd.map (Option.some_injective _)
  · intro hnotin heq
    rw [h4 htne, List.getLast?_eq_getLast_of_ne_nil htne] at heq
    exact hnotin (heq ▸ List.mem_map_of_mem some (List.getLast_mem htne))

/-- Witness for C10 on two concrete peers and two distinct clock readings. -/
theorem c10_broadcast_overwrites_transaction_id_witness :
    (broadcastTransaction wPeers wTx wTimes).1.transaction_id = some "1731000000.75" ∧
    ((broadcastTransaction wPeers wTx wTimes).2.map (fun s => s.2.transaction_id)).Nodup ∧
    (broadcastTransaction wPeers wTx wTimes).1.transaction_id ≠ wTx.transaction_id := by
  obtain ⟨h1, h2, h3, h4, h5⟩ :=
    c10_broadcast_overwrites_transaction_id wPeers wTx wTimes (by decide) (by decide)
  exact ⟨h3.trans (by decide), h4 (by decide), h5 (by decide)⟩

set_option maxRecDepth 100000 in
/-- Claim C1: a concrete block mined to target match fails hash
recomputation - mine_block stores SHA-256 of the cached static content
(which ends with difficulty and version) followed by the nonces, while
calculate_hash puts the nonces before difficulty and version, so the stored
hash of the mined block differs from calculate_hash over the same fields. -/
theorem c1_mined_block_fails_hash_recomputation :
    mineBlockRun c1Start 100 = (c1Mined, false) ∧
    calculateHash c1Mined =
      "7da0deb8f69cf98134a5bcf22c39bfdee3f41717d95d512fdd9bb075021be9e4" ∧
    c1Mined.hash ≠ calculateHash c1Mined := by
  refine ⟨by decide, by decide, by decide⟩

set_option maxRecDepth 100000 in
/-- Claim C3: when the iteration cap stops mining, the block is left with a
hash that misses the difficulty target, and the caller-visible result
(mineBlockResult, the mutated block - Python mine_block returns None) carries
no failure indication distinguishing this from success. -/
theorem c3_cap_exit_returns_invalid_block_without_failure_signal :
    mineBlockRun c3Start 1 = (c3Capped, true) ∧
    mineBlockResult c3Start 1 = c3Capped ∧
    pyStartswith c3Capped.hash (zerosTarget c3Capped.difficulty) = false := by
  refine ⟨by decide, by decide, by decide⟩

set_option maxRecDepth 100000 in
/-- Claim C4 counterexample: a difficulty-0 block is mined on target match
(flag false, the empty target matches at once), yet its hash has one leading
zero character, not exactly zero of them. -/
theorem c4_counterexample_extra_leading_zero :
    mineBlockRun c4Start 100 = (c4Mined, false) ∧
    c4Mined.difficulty = 0 ∧
    leadingZeroCount c4Mined.hash = 1 ∧
    leadingZeroCount c4Mined.hash ≠ c4Mined.difficulty := by
  refine ⟨by decide, rfl, by decide, by decide⟩

/-- Claim C4 (amended): whenever mine_block terminates on target match (not
through the iteration cap), the resulting hash starts with at least
difficulty-many '0' characters; the leading-zero run can exceed the
difficulty. -/
theorem c4_mined_on_target_starts_with_zeros (b : Block) (maxIterations : Nat)
    (h : (mineBlockRun b maxIterations).2 = false) :
    pyStartswith (mineBlockRun b maxIterations).1.hash (zerosTarget b.difficulty) = true := by
  have hsplit : mineBlockRun b maxIterations =
      ((mineBlockRun b maxIterations).1, (mineBlockRun b maxIterations).2) := rfl
  rw [h] at hsplit
  exact mineGo_false_flag_meets_target (calculateStaticHashContent b) (zerosTarget b.difficulty)
    maxIterations (maxIterations + 1) 0 b (mineBlockRun b maxIterations).1 hsplit

/-- Witness for the amended C4: a block already meeting its difficulty-1
target is returned by the loop with the success flag, and its hash starts
with the target. -/
theorem c4_mined_on_target_starts_with_zeros_witness :
    (mineBlockRun c4wStart 5).2 = false ∧
    pyStartswith (mineBlockRun c4wStart 5).1.hash (zerosTarget c4wStart.difficulty) = true :=
  ⟨by decide, c4_mined_on_target_starts_with_zeros c4wStart 5 (by decide)⟩
